import Mathlib

/-!
Shallow embedding of `src/algos/fl_assigned.py` (classes `FedAssClient` and
`FedAssServer`) and proofs about its collaborator-weight strategies, client
round loop and server round loop.

Modelling conventions:
* Python dicts of weights (`collab_weights`) are modelled as a `Finset ℕ` of
  keys together with a total function `ℕ → ℚ` that is `0` outside the keys
  (a key absent from a Python dict contributes nothing anywhere it is read).
* Python `float` weights are modelled as exact rationals `ℚ`; all raw
  weights in the source are the integer literal `1`, so no rounding occurs
  before the final division.
* `math.floor(math.log2 n)` on a positive integer `n` equals `Nat.log2 n`;
  we use the structurally recursive `floorLog2` below and prove it equal to
  `Nat.log2`.
* Exceptions (`ValueError` from an unknown strategy or from `math.log2` on a
  non-positive argument, `ZeroDivisionError` from `round % 0`) are modelled
  with `Except String`.
* The external collaborators (`local_train`, `local_test`, `aggregate`,
  `set_model_weights`, defined outside this file's source slice) are
  abstract functions bundled in an `Env`; randomness of
  `np.random.choice(..., replace=False)` is modelled by passing the sampled
  list as an explicit argument, constrained by the hypotheses of each
  theorem (duplicate-free, of the requested size, drawn from the universe).
-/

/-- Fuel-based floor of the base-2 logarithm: `floorLog2Aux fuel n` computes
`⌊log2 n⌋` provided `n ≤ fuel` (structural recursion so that the kernel can
evaluate it on concrete inputs). -/
def floorLog2Aux : ℕ → ℕ → ℕ
  | 0, _ => 0
  | fuel + 1, n => if 2 ≤ n then floorLog2Aux fuel (n / 2) + 1 else 0

/-- Models Python `math.floor(math.log2 n)` for a positive integer `n`
(equal to `Nat.log2 n`, proved below). -/
def floorLog2 (n : ℕ) : ℕ := floorLog2Aux n n

/-- The configuration keys of `fl_assigned.py` consumed by the embedded
slice (`self.config[...]` reads). `assigned_collaborators` maps a node id to
its configured collaborator list. -/
structure Config where
  strategy : String
  num_users : ℕ
  assigned_collaborators : ℕ → List ℕ
  rounds : ℕ
  start_round : ℕ
  epochs_per_round : ℕ
  T_0 : ℕ
  target_users_before_T_0 : ℕ
  target_users_after_T_0 : ℕ

/-- The tail of `FedAssClient.get_collaborator_weights`: every strategy
branch builds a dict assigning raw weight `1` to each key of `keys`, then
`total = sum(collab_weights.values())` and each entry is divided by
`total`.  The returned function is `0` outside `keys` (absent dict entry). -/
def buildWeights (keys : Finset ℕ) : Finset ℕ × (ℕ → ℚ) :=
  let raw : ℕ → ℚ := fun k => if k ∈ keys then 1 else 0
  let total : ℚ := ∑ k in keys, raw k
  (keys, fun k => if k ∈ keys then raw k / total else 0)

/-- `FedAssClient.get_collaborator_weights(num_collaborator, round)`.

* `fixed`: keys are the configured `assigned_collaborators[self.node_id]`.
* `direct_expo`: `power = round % math.floor(math.log2(num_users - 1))`
  (a `ValueError` if `num_users - 1 ≤ 0`, a `ZeroDivisionError` if the
  floor-log is `0`, i.e. `num_users = 2`), `steps = 2 ** power`,
  `collab_id = int(((node_id + steps) % num_users) + 1)` (the float
  arithmetic is exact at these magnitudes), keys `{node_id, collab_id}`.
* `random_among_assigned`: `np.random.choice(universe, size=num_collaborator,
  replace=False)` (a `ValueError` when the requested size exceeds the
  universe), modelled by the explicit `sample` argument, then
  `collab_weights[self.node_id] = 1` overwrites-or-inserts the self key.
* any other strategy string raises `ValueError("Strategy not implemented")`.

Keys lying outside `1..num_users` are possible only through a malformed
`assigned_collaborators` configuration; theorems about the stats vector
below restrict to keys in range, where the Python `collab_weight[k-1] = v`
assignment is in bounds. -/
def get_collaborator_weights (cfg : Config) (node_id : ℕ) (sample : List ℕ)
    (num_collaborator rnd : ℕ) : Except String (Finset ℕ × (ℕ → ℚ)) :=
  if cfg.strategy = "fixed" then
    .ok (buildWeights (cfg.assigned_collaborators node_id).toFinset)
  else if cfg.strategy = "direct_expo" then
    if cfg.num_users ≤ 1 then
      .error "ValueError: math domain error"
    else if floorLog2 (cfg.num_users - 1) = 0 then
      .error "ZeroDivisionError: integer modulo by zero"
    else
      .ok (buildWeights
        {node_id,
         (node_id + 2 ^ (rnd % floorLog2 (cfg.num_users - 1))) % cfg.num_users + 1})
  else if cfg.strategy = "random_among_assigned" then
    if (cfg.assigned_collaborators node_id).length < num_collaborator then
      .error "ValueError: cannot take a larger sample than population"
    else
      .ok (buildWeights (sample.toFinset ∪ {node_id}))
  else
    .error "ValueError: Strategy not implemented"

/-- The round-dependent collaborator-count read in `run_protocol`:
`config[f"target_users_{'before' if round < T_0 else 'after'}_T_0"]`. -/
def targetNumCollaborator (cfg : Config) (rnd : ℕ) : ℕ :=
  if rnd < cfg.T_0 then cfg.target_users_before_T_0 else cfg.target_users_after_T_0

/-- The per-round stats dict assembled by `FedAssClient.run_protocol`. -/
structure RoundStats where
  test_acc_before_training : ℚ
  train_loss : ℚ
  train_acc : ℚ
  test_acc_after_training : ℚ
  collab_weights : List ℚ
deriving DecidableEq

/-- External collaborators of the client (methods inherited from
`BaseFedAvgClient`, outside this source slice): local testing and training,
the weighted aggregator, and `set_model_weights` (which receives the current
model and the blended weights, honouring `model_keys_to_ignore`). `R` is the
opaque representation type. -/
structure Env (R : Type) where
  localTest : R → ℚ
  localTrain : ℕ → R → ℚ × ℚ × R
  aggregate : (ℕ → Option R) → Finset ℕ → (ℕ → ℚ) → R
  setModelWeights : R → R → R

/-- Messenger interactions performed by one client round, in program order. -/
inductive ClientAction where
  | recvRoundStart
  | sendReprAdvert
  | recvReprsShare
  | sendRoundStats
deriving DecidableEq

/-- The skip test of `run_protocol`:
`collaborators = [k for k, w in collab_weights_dict.items() if w > 0]` and
the aggregation is skipped iff
`len(collaborators) == 1 and collaborators[0] == self.node_id`. -/
def skipAggregation (node_id : ℕ) (keys : Finset ℕ) (w : ℕ → ℚ) : Bool :=
  decide ((keys.filter fun k => 0 < w k).card = 1) &&
    decide (node_id ∈ keys.filter fun k => 0 < w k)

/-- The aggregation step of `run_protocol`: either the skip branch (model
kept as is, `set_model_weights` not called) or
`set_model_weights(aggregate(reprs_dict, collab_weights_dict, ...), ...)`,
where `reprs_dict = {k: v for k, v in enumerate(reprs, 1)}`. -/
def aggregationStepModel {R : Type} (env : Env R) (node_id : ℕ) (model : R)
    (reprs : List R) (keys : Finset ℕ) (w : ℕ → ℚ) : R :=
  if skipAggregation node_id keys w then model
  else env.setModelWeights model (env.aggregate (fun k => reprs[k - 1]?) keys w)

/-- One iteration of the round loop in `FedAssClient.run_protocol`: wait for
`ROUND_START`, advertise the representation, receive the shared
representations, compute the collaborator weights, aggregate or skip, run
`local_test`, `local_train`, `local_test` again, build the fixed-length
`collab_weights` vector (`np.zeros(num_users)` with `collab_weight[k-1] = v`
for each dict entry, i.e. entry `i` holds the weight of node `i+1`), and
send the stats.  Returns the messenger trace and either the error raised by
the weight computation (after the three receive/send/receive actions) or the
updated model and the round stats. -/
def runProtocolRound {R : Type} (cfg : Config) (env : Env R) (node_id : ℕ)
    (model : R) (reprs : List R) (sample : List ℕ) (rnd : ℕ) :
    List ClientAction × Except String (R × RoundStats) :=
  match get_collaborator_weights cfg node_id sample (targetNumCollaborator cfg rnd) rnd with
  | .error e =>
      ([ClientAction.recvRoundStart, ClientAction.sendReprAdvert,
        ClientAction.recvReprsShare], .error e)
  | .ok (keys, w) =>
      let model1 := aggregationStepModel env node_id model reprs keys w
      let tr := env.localTrain cfg.epochs_per_round model1
      ([ClientAction.recvRoundStart, ClientAction.sendReprAdvert,
        ClientAction.recvReprsShare, ClientAction.sendRoundStats],
       .ok (tr.2.2,
        { test_acc_before_training := env.localTest model1
          train_loss := tr.1
          train_acc := tr.2.1
          test_acc_after_training := env.localTest tr.2.2
          collab_weights := (List.range cfg.num_users).map fun i => w (i + 1) }))

/-- Round loop of `FedAssClient.run_protocol` over a list of round indices,
threading the model, accumulating the stats and the per-round messenger
traces, and stopping at the first error (tagged with its round index). -/
def clientRoundsGo {R : Type} (cfg : Config) (env : Env R) (node_id : ℕ)
    (reprsOf : ℕ → List R) (sampleOf : ℕ → List ℕ) :
    List ℕ → R → List RoundStats → List (ℕ × List ClientAction) →
    List (ℕ × List ClientAction) × Except (ℕ × String) (R × List RoundStats)
  | [], model, statsAcc, traceAcc => (traceAcc, .ok (model, statsAcc))
  | r :: rs, model, statsAcc, traceAcc =>
    match runProtocolRound cfg env node_id model (reprsOf r) (sampleOf r) r with
    | (tr, .error e) => (traceAcc ++ [(r, tr)], .error (r, e))
    | (tr, .ok (m2, st)) =>
        clientRoundsGo cfg env node_id reprsOf sampleOf rs m2
          (statsAcc ++ [st]) (traceAcc ++ [(r, tr)])

/-- `FedAssClient.run_protocol`: iterates the round body over
`range(start_round, rounds)`.  The client performs no validation of the
configured strategy before entering the loop: its `__init__` only forwards
to the base class. -/
def clientRunProtocol {R : Type} (cfg : Config) (env : Env R) (node_id : ℕ)
    (model0 : R) (reprsOf : ℕ → List R) (sampleOf : ℕ → List ℕ) :
    List (ℕ × List ClientAction) × Except (ℕ × String) (R × List RoundStats) :=
  clientRoundsGo cfg env node_id reprsOf sampleOf
    (List.range' cfg.start_round (cfg.rounds - cfg.start_round)) model0 [] []

/-- Mutable state of `FedAssServer` relevant to this slice: the running
best accuracy `self.best_acc`. -/
structure ServerState where
  best_acc : ℚ
deriving DecidableEq

/-- Side effects performed by the server, in program order. -/
inductive ServerAction where
  | sendStart (dest : ℕ)
  | logConsole
  | gatherReprAdvert
  | sendRepresentations
  | gatherRoundStats
  | logTbRoundStats
  | saveModel
  | logExperimentsStats
  | plotExperimentsStats
deriving DecidableEq

/-- `FedAssServer.test`: evaluates the server model (the resulting accuracy
`acc` is supplied by the external `model_utils.test`), and if
`acc > self.best_acc` updates `best_acc` and saves a checkpoint.  Returns
the new state, the side-effect trace, and `acc`. -/
def serverTest (st : ServerState) (acc : ℚ) : ServerState × List ServerAction × ℚ :=
  if st.best_acc < acc then ({ best_acc := acc }, [ServerAction.saveModel], acc)
  else (st, [], acc)

/-- `FedAssServer.single_round`: sends `ROUND_START` to every client, logs,
gathers the representations, logs, rebroadcasts them, gathers the round
stats, logs, logs the stats to tensorboard (excluding `collab_weights`),
and logs the two accuracy lines.  It neither evaluates the server model nor
touches `best_acc`; the gathered `round_stats` (supplied by the external
messenger) are returned unchanged. -/
def serverSingleRound (st : ServerState) (users : List ℕ)
    (round_stats : List RoundStats) :
    ServerState × List RoundStats × List ServerAction :=
  (st, round_stats,
    users.map ServerAction.sendStart ++
      [ServerAction.logConsole, ServerAction.gatherReprAdvert,
       ServerAction.logConsole, ServerAction.sendRepresentations,
       ServerAction.gatherRoundStats, ServerAction.logConsole,
       ServerAction.logTbRoundStats, ServerAction.logConsole,
       ServerAction.logConsole])

/-- Round loop of `FedAssServer.run_protocol`: for each round index, log the
round banner, run `single_round`, and append its stats to the history. -/
def serverRoundsGo (users : List ℕ) (statsOf : ℕ → List RoundStats) :
    List ℕ → ServerState → List (List RoundStats) → List ServerAction →
    ServerState × List (List RoundStats) × List ServerAction
  | [], st, acc, tr => (st, acc, tr)
  | r :: rs, st, acc, tr =>
    match serverSingleRound st users (statsOf r) with
    | (st2, rstats, rtr) =>
        serverRoundsGo users statsOf rs st2 (acc ++ [rstats])
          (tr ++ ServerAction.logConsole :: rtr)

/-- `FedAssServer.run_protocol`: initial console log, the round loop over
`range(start_round, rounds)`, then the final experiment-stats logging and
plotting.  `statsOf r` is the list of client stats gathered in round `r`
(supplied by the external messenger). -/
def serverRunProtocol (cfg : Config) (st0 : ServerState) (users : List ℕ)
    (statsOf : ℕ → List RoundStats) :
    ServerState × List (List RoundStats) × List ServerAction :=
  match serverRoundsGo users statsOf
      (List.range' cfg.start_round (cfg.rounds - cfg.start_round)) st0 []
      [ServerAction.logConsole] with
  | (st, hist, tr) =>
      (st, hist,
        tr ++ [ServerAction.logExperimentsStats, ServerAction.plotExperimentsStats])

/-- Test fixture: `direct_expo` with five users (spec §8's worked example). -/
def cfgDirectExpo5 : Config :=
  { strategy := "direct_expo", num_users := 5, assigned_collaborators := fun _ => []
    rounds := 3, start_round := 0, epochs_per_round := 1, T_0 := 0
    target_users_before_T_0 := 0, target_users_after_T_0 := 0 }

/-- Test fixture: `direct_expo` with two users (spec §8's invalid case). -/
def cfgDirectExpo2 : Config :=
  { strategy := "direct_expo", num_users := 2, assigned_collaborators := fun _ => []
    rounds := 1, start_round := 0, epochs_per_round := 1, T_0 := 0
    target_users_before_T_0 := 0, target_users_after_T_0 := 0 }

/-- Test fixture: an unrecognized strategy string. -/
def cfgUnknownStrategy : Config :=
  { strategy := "magic", num_users := 2, assigned_collaborators := fun _ => []
    rounds := 1, start_round := 0, epochs_per_round := 1, T_0 := 0
    target_users_before_T_0 := 0, target_users_after_T_0 := 0 }

/-- Test fixture: `fixed` strategy where node 1 is assigned only itself. -/
def cfgFixedSelf : Config :=
  { strategy := "fixed", num_users := 3, assigned_collaborators := fun _ => [1]
    rounds := 1, start_round := 0, epochs_per_round := 1, T_0 := 0
    target_users_before_T_0 := 0, target_users_after_T_0 := 0 }

/-- Test fixture: `fixed` strategy where node 1 is assigned `{1, 2, 3}`. -/
def cfgFixedTriple : Config :=
  { strategy := "fixed", num_users := 3, assigned_collaborators := fun _ => [1, 2, 3]
    rounds := 1, start_round := 0, epochs_per_round := 1, T_0 := 0
    target_users_before_T_0 := 0, target_users_after_T_0 := 0 }

/-- Test fixture: `random_among_assigned` with universe `{1, 2, 3}` for
every node. -/
def cfgRandomAssigned : Config :=
  { strategy := "random_among_assigned", num_users := 3
    assigned_collaborators := fun _ => [1, 2, 3]
    rounds := 1, start_round := 0, epochs_per_round := 1, T_0 := 0
    target_users_before_T_0 := 2, target_users_after_T_0 := 2 }

/-- Trivial external environment over the unit representation type, used to
instantiate theorems at concrete inputs. -/
def envUnit : Env Unit :=
  { localTest := fun _ => 0
    localTrain := fun _ _ => (0, 0, ())
    aggregate := fun _ _ _ => ()
    setModelWeights := fun _ _ => () }

/-- Concrete round stats carrying accuracy 1, used to instantiate server
theorems. -/
def statsAccOne : RoundStats :=
  { test_acc_before_training := 0, train_loss := 0, train_acc := 0
    test_acc_after_training := 1, collab_weights := [] }

/-! ## Helper lemmas -/

theorem floorLog2Aux_eq_log2 (fuel n : ℕ) (h : n ≤ fuel) :
    floorLog2Aux fuel n = Nat.log2 n := by
  induction fuel generalizing n with
  | zero =>
    interval_cases n
    simp [floorLog2Aux, Nat.log2]
  | succ f ih =>
    rw [floorLog2Aux, Nat.log2]
    by_cases h2 : 2 ≤ n
    · rw [if_pos h2, if_pos h2, ih]
      omega
    · rw [if_neg h2, if_neg h2]

theorem floorLog2_eq_log2 (n : ℕ) : floorLog2 n = Nat.log2 n :=
  floorLog2Aux_eq_log2 n n le_rfl

theorem one_le_floorLog2 (m : ℕ) (h : 2 ≤ m) : 1 ≤ floorLog2 m := by
  rw [floorLog2_eq_log2, Nat.log2]
  rw [if_pos h]
  omega

theorem floorLog2_pow_le (m : ℕ) (hm : m ≠ 0) : 2 ^ floorLog2 m ≤ m := by
  rw [floorLog2_eq_log2]
  exact Nat.log2_self_le hm

theorem buildWeights_fst (keys : Finset ℕ) : (buildWeights keys).1 = keys := rfl

theorem buildWeights_total (keys : Finset ℕ) :
    (∑ k in keys, if k ∈ keys then (1 : ℚ) else 0) = keys.card := by
  rw [Finset.sum_congr rfl fun k hk => if_pos hk, Finset.sum_const,
    nsmul_eq_mul, mul_one]

theorem buildWeights_apply_mem (keys : Finset ℕ) (k : ℕ) (hk : k ∈ keys) :
    (buildWeights keys).2 k = 1 / (keys.card : ℚ) := by
  show (if k ∈ keys then (if k ∈ keys then (1 : ℚ) else 0) /
      (∑ j in keys, if j ∈ keys then (1 : ℚ) else 0) else 0) = 1 / (keys.card : ℚ)
  rw [if_pos hk, if_pos hk, buildWeights_total]

theorem buildWeights_apply_not_mem (keys : Finset ℕ) (k : ℕ) (hk : k ∉ keys) :
    (buildWeights keys).2 k = 0 := by
  show (if k ∈ keys then (if k ∈ keys then (1 : ℚ) else 0) /
      (∑ j in keys, if j ∈ keys then (1 : ℚ) else 0) else 0) = 0
  rw [if_neg hk]

theorem buildWeights_pos (keys : Finset ℕ) (hne : keys.Nonempty) (k : ℕ)
    (hk : k ∈ keys) : 0 < (buildWeights keys).2 k := by
  rw [buildWeights_apply_mem keys k hk]
  have hc : 0 < (keys.card : ℚ) := by
    exact_mod_cast Finset.card_pos.mpr hne
  positivity

theorem buildWeights_sum_one (keys : Finset ℕ) (hne : keys.Nonempty) :
    ∑ k in keys, (buildWeights keys).2 k = 1 := by
  have hc : (keys.card : ℚ) ≠ 0 := by
    have h1 : 0 < keys.card := Finset.card_pos.mpr hne
    exact_mod_cast h1.ne'
  rw [Finset.sum_congr rfl fun k hk => buildWeights_apply_mem keys k hk,
    Finset.sum_const, nsmul_eq_mul, mul_one_div, div_self hc]

theorem get_collaborator_weights_ok (cfg : Config) (node_id : ℕ)
    (sample : List ℕ) (num_collaborator rnd : ℕ)
    (pr : Finset ℕ × (ℕ → ℚ))
    (h : get_collaborator_weights cfg node_id sample num_collaborator rnd = .ok pr) :
    pr = buildWeights pr.1 := by
  unfold get_collaborator_weights at h
  split_ifs at h <;> simp only [Except.ok.injEq] at h <;> rw [← h, buildWeights_fst]

theorem getCW_fixed (cfg : Config) (node_id : ℕ) (sample : List ℕ)
    (num_collaborator rnd : ℕ) (hs : cfg.strategy = "fixed") :
    get_collaborator_weights cfg node_id sample num_collaborator rnd =
      .ok (buildWeights (cfg.assigned_collaborators node_id).toFinset) := by
  unfold get_collaborator_weights
  rw [hs, if_pos rfl]

theorem getCW_direct_expo (cfg : Config) (node_id : ℕ) (sample : List ℕ)
    (num_collaborator rnd : ℕ) (hs : cfg.strategy = "direct_expo")
    (hl : 1 ≤ floorLog2 (cfg.num_users - 1)) :
    get_collaborator_weights cfg node_id sample num_collaborator rnd =
      .ok (buildWeights {node_id,
        (node_id + 2 ^ (rnd % floorLog2 (cfg.num_users - 1))) % cfg.num_users + 1}) := by
  have hn : ¬ cfg.num_users ≤ 1 := by
    intro hle
    have h0 : cfg.num_users - 1 = 0 := by omega
    rw [h0] at hl
    simp [floorLog2, floorLog2Aux] at hl
  unfold get_collaborator_weights
  rw [hs]
  rw [if_neg (by decide), if_pos rfl, if_neg hn, if_neg (by omega)]

theorem getCW_random (cfg : Config) (node_id : ℕ) (sample : List ℕ)
    (num_collaborator rnd : ℕ) (hs : cfg.strategy = "random_among_assigned")
    (hlen : num_collaborator ≤ (cfg.assigned_collaborators node_id).length) :
    get_collaborator_weights cfg node_id sample num_collaborator rnd =
      .ok (buildWeights (sample.toFinset ∪ {node_id})) := by
  unfold get_collaborator_weights
  rw [hs]
  rw [if_neg (by decide), if_neg (by decide), if_pos rfl, if_neg (by omega)]

/-! ## Claim theorems -/

/-- C1: for every strategy, node id and round, whenever
`get_collaborator_weights` returns a weight mapping with a nonempty key set,
all weights on present keys are strictly positive, the weights sum to
exactly 1 (hence within tolerance `1e-9`), absent keys carry weight 0, and
each weight is the raw weight 1 divided by the sum of the raw weights.
(The key set is nonempty for every strategy except a degenerate `fixed`
configuration whose assigned-collaborator list is empty, where the source
returns an empty dict.) -/
theorem weights_positive_and_sum_one (cfg : Config) (node_id : ℕ)
    (sample : List ℕ) (num_collaborator rnd : ℕ) (keys : Finset ℕ) (w : ℕ → ℚ)
    (hok : get_collaborator_weights cfg node_id sample num_collaborator rnd =
      .ok (keys, w))
    (hne : keys.Nonempty) :
    (∀ k ∈ keys, 0 < w k) ∧
    (∑ k in keys, w k = 1) ∧
    |(∑ k in keys, w k) - 1| ≤ 1 / 1000000000 ∧
    (∀ k ∉ keys, w k = 0) ∧
    (∀ k ∈ keys, w k = 1 / ∑ j in keys, (1 : ℚ)) := by
  have hsh := get_collaborator_weights_ok cfg node_id sample num_collaborator
    rnd (keys, w) hok
  have hw : w = (buildWeights keys).2 := congrArg Prod.snd hsh
  rw [hw]
  refine ⟨fun k hk => buildWeights_pos keys hne k hk,
    buildWeights_sum_one keys hne, ?_,
    fun k hk => buildWeights_apply_not_mem keys k hk, fun k hk => ?_⟩
  · rw [buildWeights_sum_one keys hne]
    norm_num
  · rw [buildWeights_apply_mem keys k hk, Finset.sum_const, nsmul_eq_mul, mul_one]

/-- C1 witness: the `fixed` strategy on the fixture assigning `[1, 2, 3]`
to node 1 satisfies the hypotheses and its weights sum to 1. -/
theorem weights_positive_and_sum_one_witness :
    ∑ k in ([1, 2, 3] : List ℕ).toFinset,
      (buildWeights ([1, 2, 3] : List ℕ).toFinset).2 k = 1 :=
  (weights_positive_and_sum_one cfgFixedTriple 1 [] 0 0
    ([1, 2, 3] : List ℕ).toFinset
    (buildWeights ([1, 2, 3] : List ℕ).toFinset).2 rfl (by decide)).2.1

/-- C2: under `direct_expo`, the computed pair is
`{self_id, ((self_id + 2 ^ (round mod floor(log2(num_users-1)))) mod num_users) + 1}`
with equal weights; on `num_users = 5`, `self_id = 1`, `round = 0` this is
`{1: 1/2, 3: 1/2}`, round 2 gives the same result, and in general the
result is periodic in the round with period `floor(log2(num_users-1))`. -/
theorem direct_expo_formula_and_periodicity :
    (∀ (cfg : Config) (node_id : ℕ) (sample : List ℕ) (nc rnd : ℕ),
      cfg.strategy = "direct_expo" → 1 ≤ floorLog2 (cfg.num_users - 1) →
      get_collaborator_weights cfg node_id sample nc rnd =
        .ok (buildWeights {node_id,
          (node_id + 2 ^ (rnd % floorLog2 (cfg.num_users - 1))) % cfg.num_users + 1})) ∧
    (∀ (keys : Finset ℕ) (k j : ℕ), k ∈ keys → j ∈ keys →
      (buildWeights keys).2 k = (buildWeights keys).2 j) ∧
    (get_collaborator_weights cfgDirectExpo5 1 [] 0 0 =
        .ok ({1, 3}, (buildWeights ({1, 3} : Finset ℕ)).2) ∧
      (buildWeights ({1, 3} : Finset ℕ)).2 1 = 1 / 2 ∧
      (buildWeights ({1, 3} : Finset ℕ)).2 3 = 1 / 2) ∧
    (get_collaborator_weights cfgDirectExpo5 1 [] 0 2 =
      get_collaborator_weights cfgDirectExpo5 1 [] 0 0) ∧
    (∀ (cfg : Config) (node_id : ℕ) (sample : List ℕ) (nc rnd : ℕ),
      cfg.strategy = "direct_expo" →
      get_collaborator_weights cfg node_id sample nc
          (rnd + floorLog2 (cfg.num_users - 1)) =
        get_collaborator_weights cfg node_id sample nc rnd) := by
  have hc13 : ({1, 3} : Finset ℕ).card = 2 := rfl
  refine ⟨fun cfg node_id sample nc rnd hs hl =>
      getCW_direct_expo cfg node_id sample nc rnd hs hl,
    fun keys k j hk hj => ?_, ⟨rfl, ?_, ?_⟩, rfl, ?_⟩
  · rw [buildWeights_apply_mem keys k hk, buildWeights_apply_mem keys j hj]
  · rw [buildWeights_apply_mem _ _ (by decide), hc13]
    norm_num
  · rw [buildWeights_apply_mem _ _ (by decide), hc13]
    norm_num
  · intro cfg node_id sample nc rnd hs
    unfold get_collaborator_weights
    rw [hs]
    simp only [if_neg (by decide : ¬ ("direct_expo" : String) = "fixed"), if_pos rfl]
    by_cases h1 : cfg.num_users ≤ 1
    · rw [if_pos h1, if_pos h1]
    · rw [if_neg h1, if_neg h1]
      by_cases h2 : floorLog2 (cfg.num_users - 1) = 0
      · rw [if_pos h2, if_pos h2]
      · rw [if_neg h2, if_neg h2, Nat.add_mod_right]

/-- C2 witness: the general formula applied at `num_users = 5`,
`self_id = 1`, `round = 0` yields the pair `{1, 3}`. -/
theorem direct_expo_formula_witness :
    get_collaborator_weights cfgDirectExpo5 1 [] 0 0 =
      .ok (buildWeights {1, (1 + 2 ^ (0 % floorLog2 (5 - 1))) % 5 + 1}) :=
  direct_expo_formula_and_periodicity.1 cfgDirectExpo5 1 [] 0 0 rfl (by decide)

/-- C6: under `fixed`, the key set is exactly the configured
assigned-collaborators list of `self_id`, each with weight `1/k` where `k`
is the size of the list; in particular an assignment `[self, a, b]` of three
distinct nodes yields weights `1/3` each. -/
theorem fixed_strategy_weights :
    (∀ (cfg : Config) (node_id : ℕ) (sample : List ℕ) (nc rnd : ℕ),
      cfg.strategy = "fixed" →
      get_collaborator_weights cfg node_id sample nc rnd =
        .ok ((cfg.assigned_collaborators node_id).toFinset,
          (buildWeights (cfg.assigned_collaborators node_id).toFinset).2) ∧
      ∀ k ∈ (cfg.assigned_collaborators node_id).toFinset,
        (buildWeights (cfg.assigned_collaborators node_id).toFinset).2 k =
          1 / ((cfg.assigned_collaborators node_id).toFinset.card : ℚ)) ∧
    (∀ (cfg : Config) (node_id a b : ℕ) (sample : List ℕ) (nc rnd : ℕ),
      cfg.strategy = "fixed" →
      cfg.assigned_collaborators node_id = [node_id, a, b] →
      node_id ≠ a → node_id ≠ b → a ≠ b →
      get_collaborator_weights cfg node_id sample nc rnd =
        .ok ({node_id, a, b},
          (buildWeights ({node_id, a, b} : Finset ℕ)).2) ∧
      (buildWeights ({node_id, a, b} : Finset ℕ)).2 node_id = 1 / 3 ∧
      (buildWeights ({node_id, a, b} : Finset ℕ)).2 a = 1 / 3 ∧
      (buildWeights ({node_id, a, b} : Finset ℕ)).2 b = 1 / 3) := by
  constructor
  · intro cfg node_id sample nc rnd hs
    exact ⟨getCW_fixed cfg node_id sample nc rnd hs,
      fun k hk => buildWeights_apply_mem _ k hk⟩
  · intro cfg node_id a b sample nc rnd hs ha hna hnb hab
    have hkeys : (cfg.assigned_collaborators node_id).toFinset =
        ({node_id, a, b} : Finset ℕ) := by
      rw [ha]
      simp [List.toFinset_cons, List.toFinset_nil]
    have hcard : ({node_id, a, b} : Finset ℕ).card = 3 := by
      rw [Finset.card_insert_of_not_mem (by simp [hna, hnb]),
        Finset.card_insert_of_not_mem (by simp [hab]), Finset.card_singleton]
    have hmem1 : node_id ∈ ({node_id, a, b} : Finset ℕ) := by simp
    have hmem2 : a ∈ ({node_id, a, b} : Finset ℕ) := by simp
    have hmem3 : b ∈ ({node_id, a, b} : Finset ℕ) := by simp
    refine ⟨?_, ?_, ?_, ?_⟩
    · rw [getCW_fixed cfg node_id sample nc rnd hs, hkeys]
      rfl
    · rw [buildWeights_apply_mem _ _ hmem1, hcard]
      norm_num
    · rw [buildWeights_apply_mem _ _ hmem2, hcard]
      norm_num
    · rw [buildWeights_apply_mem _ _ hmem3, hcard]
      norm_num

/-- C6 witness: the fixture assigning `[1, 2, 3]` to node 1 gets weights
`1/3`, `1/3`, `1/3`. -/
theorem fixed_strategy_weights_witness :
    get_collaborator_weights cfgFixedTriple 1 [] 0 0 =
      .ok ({1, 2, 3}, (buildWeights ({1, 2, 3} : Finset ℕ)).2) ∧
    (buildWeights ({1, 2, 3} : Finset ℕ)).2 1 = 1 / 3 ∧
    (buildWeights ({1, 2, 3} : Finset ℕ)).2 2 = 1 / 3 ∧
    (buildWeights ({1, 2, 3} : Finset ℕ)).2 3 = 1 / 3 :=
  fixed_strategy_weights.2 cfgFixedTriple 1 2 3 [] 0 0 rfl rfl
    (by decide) (by decide) (by decide)

/-- C9: for `num_users ≥ 3`, any `self_id` in `1..num_users` and any round,
`direct_expo` returns exactly the two distinct keys `{self_id, peer}` with
`peer` in `1..num_users`, `peer ≠ self_id`, each weighted `1/2`, so the
skip-aggregation test of the round loop is never satisfied. -/
theorem direct_expo_never_skips (cfg : Config) (node_id : ℕ)
    (sample : List ℕ) (nc rnd : ℕ)
    (hs : cfg.strategy = "direct_expo") (h3 : 3 ≤ cfg.num_users)
    (h1 : 1 ≤ node_id) (h2 : node_id ≤ cfg.num_users) :
    ∃ peer : ℕ,
      get_collaborator_weights cfg node_id sample nc rnd =
        .ok ({node_id, peer}, (buildWeights ({node_id, peer} : Finset ℕ)).2) ∧
      peer ≠ node_id ∧ 1 ≤ peer ∧ peer ≤ cfg.num_users ∧
      ({node_id, peer} : Finset ℕ).card = 2 ∧
      (buildWeights ({node_id, peer} : Finset ℕ)).2 node_id = 1 / 2 ∧
      (buildWeights ({node_id, peer} : Finset ℕ)).2 peer = 1 / 2 ∧
      skipAggregation node_id ({node_id, peer} : Finset ℕ)
        ((buildWeights ({node_id, peer} : Finset ℕ)).2) = false := by
  have hL : 1 ≤ floorLog2 (cfg.num_users - 1) := one_le_floorLog2 _ (by omega)
  have hp : rnd % floorLog2 (cfg.num_users - 1) < floorLog2 (cfg.num_users - 1) :=
    Nat.mod_lt _ (by omega)
  have hs1 : 1 ≤ 2 ^ (rnd % floorLog2 (cfg.num_users - 1)) := Nat.one_le_two_pow
  have hpow : 2 * 2 ^ (rnd % floorLog2 (cfg.num_users - 1)) ≤ cfg.num_users - 1 := by
    have e1 : 2 ^ (rnd % floorLog2 (cfg.num_users - 1) + 1) =
        2 * 2 ^ (rnd % floorLog2 (cfg.num_users - 1)) := by
      rw [pow_succ]
      ring
    have e2 : 2 ^ (rnd % floorLog2 (cfg.num_users - 1) + 1) ≤
        2 ^ floorLog2 (cfg.num_users - 1) :=
      Nat.pow_le_pow_right (by norm_num) (by omega)
    have e3 : 2 ^ floorLog2 (cfg.num_users - 1) ≤ cfg.num_users - 1 :=
      floorLog2_pow_le _ (by omega)
    omega
  refine ⟨(node_id + 2 ^ (rnd % floorLog2 (cfg.num_users - 1))) % cfg.num_users + 1,
    ?_, ?_, by omega, ?_, ?_, ?_, ?_, ?_⟩
  case _ =>
    rw [getCW_direct_expo cfg node_id sample nc rnd hs hL]
    rfl
  case _ =>
    rcases Nat.lt_or_ge (node_id + 2 ^ (rnd % floorLog2 (cfg.num_users - 1)))
        cfg.num_users with hlt | hge
    · rw [Nat.mod_eq_of_lt hlt]
      omega
    · have hrw : (node_id + 2 ^ (rnd % floorLog2 (cfg.num_users - 1))) %
          cfg.num_users =
          node_id + 2 ^ (rnd % floorLog2 (cfg.num_users - 1)) - cfg.num_users := by
        rw [Nat.mod_eq_sub_mod hge, Nat.mod_eq_of_lt (by omega)]
      rw [hrw]
      omega
  case _ =>
    have hmod : (node_id + 2 ^ (rnd % floorLog2 (cfg.num_users - 1))) %
        cfg.num_users < cfg.num_users := Nat.mod_lt _ (by omega)
    omega
  all_goals {
    have hne : (node_id + 2 ^ (rnd % floorLog2 (cfg.num_users - 1))) %
        cfg.num_users + 1 ≠ node_id := by
      rcases Nat.lt_or_ge (node_id + 2 ^ (rnd % floorLog2 (cfg.num_users - 1)))
          cfg.num_users with hlt | hge
      · rw [Nat.mod_eq_of_lt hlt]
        omega
      · have hrw : (node_id + 2 ^ (rnd % floorLog2 (cfg.num_users - 1))) %
            cfg.num_users =
            node_id + 2 ^ (rnd % floorLog2 (cfg.num_users - 1)) - cfg.num_users := by
          rw [Nat.mod_eq_sub_mod hge, Nat.mod_eq_of_lt (by omega)]
        rw [hrw]
        omega
    have hcard : ({node_id,
        (node_id + 2 ^ (rnd % floorLog2 (cfg.num_users - 1))) % cfg.num_users + 1} :
        Finset ℕ).card = 2 := by
      rw [Finset.card_insert_of_not_mem (by simp [Ne.symm hne]),
        Finset.card_singleton]
    first
    | exact hcard
    | · rw [buildWeights_apply_mem _ _ (by simp), hcard]
        norm_num
    | · have hfil : ({node_id,
          (node_id + 2 ^ (rnd % floorLog2 (cfg.num_users - 1))) % cfg.num_users + 1} :
          Finset ℕ).filter
            (fun k => 0 < (buildWeights ({node_id,
              (node_id + 2 ^ (rnd % floorLog2 (cfg.num_users - 1))) %
                cfg.num_users + 1} : Finset ℕ)).2 k) =
          ({node_id,
            (node_id + 2 ^ (rnd % floorLog2 (cfg.num_users - 1))) %
              cfg.num_users + 1} : Finset ℕ) :=
          Finset.filter_true_of_mem fun k hk =>
            buildWeights_pos _ ⟨node_id, by simp⟩ k hk
        unfold skipAggregation
        rw [hfil, hcard]
        simp
  }

/-- C9 witness: the fixture `num_users = 5`, `self_id = 1`, `round = 0`
realises the hypotheses. -/
theorem direct_expo_never_skips_witness :
    ∃ peer : ℕ,
      get_collaborator_weights cfgDirectExpo5 1 [] 0 0 =
        .ok ({1, peer}, (buildWeights ({1, peer} : Finset ℕ)).2) ∧
      peer ≠ 1 ∧ 1 ≤ peer ∧ peer ≤ cfgDirectExpo5.num_users ∧
      ({1, peer} : Finset ℕ).card = 2 ∧
      (buildWeights ({1, peer} : Finset ℕ)).2 1 = 1 / 2 ∧
      (buildWeights ({1, peer} : Finset ℕ)).2 peer = 1 / 2 ∧
      skipAggregation 1 ({1, peer} : Finset ℕ)
        ((buildWeights ({1, peer} : Finset ℕ)).2) = false :=
  direct_expo_never_skips cfgDirectExpo5 1 [] 0 0 rfl (by decide) (by decide)
    (by decide)

/-- C10: under `random_among_assigned` with a duplicate-free sample of
`num_collaborator` ids drawn from the assigned universe, the key set is the
sample united with `{self_id}`.  When `self_id` is among the sampled ids the
self raw weight of 1 overwrites the sampled entry, so there are exactly
`num_collaborator` keys each weighted `1/num_collaborator`; only when
`self_id` was not sampled are there `num_collaborator + 1` keys each
weighted `1/(num_collaborator + 1)`. -/
theorem random_among_assigned_weights (cfg : Config) (node_id : ℕ)
    (sample : List ℕ) (nc rnd : ℕ)
    (hs : cfg.strategy = "random_among_assigned")
    (hlen : nc ≤ (cfg.assigned_collaborators node_id).length)
    (hnd : sample.Nodup) (hsz : sample.length = nc)
    (hsub : ∀ x ∈ sample, x ∈ cfg.assigned_collaborators node_id) :
    get_collaborator_weights cfg node_id sample nc rnd =
      .ok (sample.toFinset ∪ {node_id},
        (buildWeights (sample.toFinset ∪ {node_id})).2) ∧
    (node_id ∈ sample →
      (sample.toFinset ∪ {node_id}).card = nc ∧
      ∀ k ∈ sample.toFinset ∪ {node_id},
        (buildWeights (sample.toFinset ∪ {node_id})).2 k = 1 / (nc : ℚ)) ∧
    (node_id ∉ sample →
      (sample.toFinset ∪ {node_id}).card = nc + 1 ∧
      ∀ k ∈ sample.toFinset ∪ {node_id},
        (buildWeights (sample.toFinset ∪ {node_id})).2 k = 1 / ((nc : ℚ) + 1)) := by
  refine ⟨?_, fun hmem => ?_, fun hmem => ?_⟩
  · rw [getCW_random cfg node_id sample nc rnd hs hlen]
    rfl
  · have hunion : sample.toFinset ∪ {node_id} = sample.toFinset :=
      Finset.union_eq_left.mpr
        (Finset.singleton_subset_iff.mpr (List.mem_toFinset.mpr hmem))
    have hcard : (sample.toFinset ∪ {node_id}).card = nc := by
      rw [hunion, List.toFinset_card_of_nodup hnd, hsz]
    exact ⟨hcard, fun k hk => by rw [buildWeights_apply_mem _ k hk, hcard]⟩
  · have hunion : sample.toFinset ∪ {node_id} = insert node_id sample.toFinset := by
      rw [Finset.union_comm, ← Finset.insert_eq]
    have hcard : (sample.toFinset ∪ {node_id}).card = nc + 1 := by
      rw [hunion,
        Finset.card_insert_of_not_mem (fun hc => hmem (List.mem_toFinset.mp hc)),
        List.toFinset_card_of_nodup hnd, hsz]
    refine ⟨hcard, fun k hk => ?_⟩
    rw [buildWeights_apply_mem _ k hk, hcard]
    push_cast
    ring

/-- C10 witness: universe `[1, 2, 3]`, sample `[1, 2]` containing the self
id 1, `num_collaborator = 2`. -/
theorem random_among_assigned_weights_witness :
    get_collaborator_weights cfgRandomAssigned 1 [1, 2] 2 0 =
      .ok (([1, 2] : List ℕ).toFinset ∪ {1},
        (buildWeights (([1, 2] : List ℕ).toFinset ∪ {1})).2) ∧
    ((1 : ℕ) ∈ ([1, 2] : List ℕ) →
      (([1, 2] : List ℕ).toFinset ∪ {1}).card = 2 ∧
      ∀ k ∈ ([1, 2] : List ℕ).toFinset ∪ {1},
        (buildWeights (([1, 2] : List ℕ).toFinset ∪ {1})).2 k = 1 / ((2 : ℕ) : ℚ)) ∧
    ((1 : ℕ) ∉ ([1, 2] : List ℕ) →
      (([1, 2] : List ℕ).toFinset ∪ {1}).card = 2 + 1 ∧
      ∀ k ∈ ([1, 2] : List ℕ).toFinset ∪ {1},
        (buildWeights (([1, 2] : List ℕ).toFinset ∪ {1})).2 k = 1 / (((2 : ℕ) : ℚ) + 1)) :=
  random_among_assigned_weights cfgRandomAssigned 1 [1, 2] 2 0 rfl (by decide)
    (by decide) (by decide) (by decide)

/-- C3: when the resolved collaborator set (keys with positive weight) is
exactly the singleton of the node's own id, the round loop skips
aggregation and `set_model_weights`, so the model entering the local
test/train phase is the model from before the round, while `local_test`
and `local_train` still run and their results are recorded in the round
stats. -/
theorem skip_aggregation_retains_model {R : Type} (cfg : Config) (env : Env R)
    (node_id : ℕ) (model : R) (reprs : List R) (sample : List ℕ) (rnd : ℕ)
    (keys : Finset ℕ) (w : ℕ → ℚ)
    (hok : get_collaborator_weights cfg node_id sample
      (targetNumCollaborator cfg rnd) rnd = .ok (keys, w))
    (hsingle : keys.filter (fun k => 0 < w k) = {node_id}) :
    aggregationStepModel env node_id model reprs keys w = model ∧
    (runProtocolRound cfg env node_id model reprs sample rnd).2 =
      .ok ((env.localTrain cfg.epochs_per_round model).2.2,
        { test_acc_before_training := env.localTest model
          train_loss := (env.localTrain cfg.epochs_per_round model).1
          train_acc := (env.localTrain cfg.epochs_per_round model).2.1
          test_acc_after_training :=
            env.localTest (env.localTrain cfg.epochs_per_round model).2.2
          collab_weights := (List.range cfg.num_users).map fun i => w (i + 1) }) := by
  have hskip : skipAggregation node_id keys w = true := by
    unfold skipAggregation
    rw [hsingle]
    simp
  have hagg : aggregationStepModel env node_id model reprs keys w = model := by
    unfold aggregationStepModel
    rw [hskip]
    simp
  refine ⟨hagg, ?_⟩
  unfold runProtocolRound
  rw [hok]
  simp only [hagg]

/-- C3 witness: node 1 under `fixed` with assigned list `[1]` resolves the
singleton `{1}` and keeps its (unit) model. -/
theorem skip_aggregation_retains_model_witness :
    aggregationStepModel envUnit 1 () [] ([1] : List ℕ).toFinset
      ((buildWeights ([1] : List ℕ).toFinset).2) = () ∧
    (runProtocolRound cfgFixedSelf envUnit 1 () [] [] 0).2 =
      .ok ((envUnit.localTrain cfgFixedSelf.epochs_per_round ()).2.2,
        { test_acc_before_training := envUnit.localTest ()
          train_loss := (envUnit.localTrain cfgFixedSelf.epochs_per_round ()).1
          train_acc := (envUnit.localTrain cfgFixedSelf.epochs_per_round ()).2.1
          test_acc_after_training :=
            envUnit.localTest (envUnit.localTrain cfgFixedSelf.epochs_per_round ()).2.2
          collab_weights := (List.range cfgFixedSelf.num_users).map fun i =>
            (buildWeights ([1] : List ℕ).toFinset).2 (i + 1) }) :=
  skip_aggregation_retains_model cfgFixedSelf envUnit 1 () [] [] 0
    ([1] : List ℕ).toFinset ((buildWeights ([1] : List ℕ).toFinset).2) rfl
    (by
      rw [show ([1] : List ℕ).toFinset = ({1} : Finset ℕ) from rfl,
        Finset.filter_singleton, if_pos]
      exact buildWeights_pos {1} ⟨1, Finset.mem_singleton_self 1⟩ 1
        (Finset.mem_singleton_self 1))

/-- C8: a successful client round builds a `collab_weights` vector of
length `num_users` whose entry at index `k - 1` is the normalized weight of
collaborator `k` and whose entries for non-collaborators are 0, records it
in the round stats, and the messenger trace ends by sending the stats to
the server. -/
theorem report_collab_weight_vector {R : Type} (cfg : Config) (env : Env R)
    (node_id : ℕ) (model : R) (reprs : List R) (sample : List ℕ) (rnd : ℕ)
    (keys : Finset ℕ) (w : ℕ → ℚ)
    (hok : get_collaborator_weights cfg node_id sample
      (targetNumCollaborator cfg rnd) rnd = .ok (keys, w)) :
    (runProtocolRound cfg env node_id model reprs sample rnd).1 =
      [ClientAction.recvRoundStart, ClientAction.sendReprAdvert,
       ClientAction.recvReprsShare, ClientAction.sendRoundStats] ∧
    ∃ m2 stats,
      (runProtocolRound cfg env node_id model reprs sample rnd).2 =
        .ok (m2, stats) ∧
      stats.collab_weights.length = cfg.num_users ∧
      (∀ k ∈ keys, 1 ≤ k → k ≤ cfg.num_users →
        stats.collab_weights[k - 1]? = some (w k)) ∧
      (∀ i, i < cfg.num_users → (i + 1) ∉ keys →
        stats.collab_weights[i]? = some 0) := by
  have hsh := get_collaborator_weights_ok cfg node_id sample
    (targetNumCollaborator cfg rnd) rnd (keys, w) hok
  have hw : w = (buildWeights keys).2 := congrArg Prod.snd hsh
  unfold runProtocolRound
  rw [hok]
  refine ⟨rfl, _, _, rfl, ?_, fun k hk hk1 hkn => ?_, fun i hi hni => ?_⟩
  · simp
  · have hidx : k - 1 < cfg.num_users := by omega
    rw [List.getElem?_map, List.getElem?_range hidx]
    simp only [Option.map_some']
    congr 1
    congr 1
    omega
  · rw [List.getElem?_map, List.getElem?_range hi]
    simp only [Option.map_some']
    congr 1
    rw [hw]
    exact buildWeights_apply_not_mem keys (i + 1) hni

/-- C8 witness: node 1 under the `fixed` fixture with assigned list
`[1, 2, 3]` reports a length-3 vector holding each collaborator's weight at
index id − 1. -/
theorem report_collab_weight_vector_witness :
    (runProtocolRound cfgFixedTriple envUnit 1 () [] [] 0).1 =
      [ClientAction.recvRoundStart, ClientAction.sendReprAdvert,
       ClientAction.recvReprsShare, ClientAction.sendRoundStats] ∧
    ∃ m2 stats,
      (runProtocolRound cfgFixedTriple envUnit 1 () [] [] 0).2 =
        .ok (m2, stats) ∧
      stats.collab_weights.length = cfgFixedTriple.num_users ∧
      (∀ k ∈ ([1, 2, 3] : List ℕ).toFinset, 1 ≤ k → k ≤ cfgFixedTriple.num_users →
        stats.collab_weights[k - 1]? =
          some ((buildWeights ([1, 2, 3] : List ℕ).toFinset).2 k)) ∧
      (∀ i, i < cfgFixedTriple.num_users → (i + 1) ∉ ([1, 2, 3] : List ℕ).toFinset →
        stats.collab_weights[i]? = some 0) :=
  report_collab_weight_vector cfgFixedTriple envUnit 1 () [] [] 0
    ([1, 2, 3] : List ℕ).toFinset
    ((buildWeights ([1, 2, 3] : List ℕ).toFinset).2) rfl

/-- C4 counterexample: with `direct_expo` and `num_users = 2` the run does
not fail at configuration time before any round; the client enters round 0,
performs the round's receive/advertise/receive exchange, and only then the
weight computation raises `ZeroDivisionError` (`round % 0`, since
`floor(log2(1)) = 0`) — there is no ConfigurationError anywhere in the
code. -/
theorem direct_expo_two_users_fails_mid_round_cex :
    clientRunProtocol cfgDirectExpo2 envUnit 1 () (fun _ => [(), ()])
        (fun _ => []) =
      ([(0, [ClientAction.recvRoundStart, ClientAction.sendReprAdvert,
        ClientAction.recvReprsShare])],
       .error (0, "ZeroDivisionError: integer modulo by zero")) ∧
    get_collaborator_weights cfgDirectExpo2 1 []
        (targetNumCollaborator cfgDirectExpo2 0) 0 =
      .error "ZeroDivisionError: integer modulo by zero" :=
  ⟨rfl, rfl⟩

/-- C4 (amended): a `direct_expo` configuration with `num_users = 2` fails
with `ZeroDivisionError` raised inside `get_collaborator_weights` during the
first executed round — after that round's message exchange — rather than
with a ConfigurationError at configuration-validation time. -/
theorem direct_expo_two_users_zero_division {R : Type} (cfg : Config)
    (env : Env R) (node_id : ℕ) (model : R) (reprs : List R)
    (sample : List ℕ) (rnd : ℕ)
    (hs : cfg.strategy = "direct_expo") (hn : cfg.num_users = 2) :
    get_collaborator_weights cfg node_id sample
        (targetNumCollaborator cfg rnd) rnd =
      .error "ZeroDivisionError: integer modulo by zero" ∧
    runProtocolRound cfg env node_id model reprs sample rnd =
      ([ClientAction.recvRoundStart, ClientAction.sendReprAdvert,
        ClientAction.recvReprsShare],
       .error "ZeroDivisionError: integer modulo by zero") ∧
    (∀ (model0 : R) (reprsOf : ℕ → List R) (sampleOf : ℕ → List ℕ),
      cfg.start_round < cfg.rounds →
      (clientRunProtocol cfg env node_id model0 reprsOf sampleOf).2 =
        .error (cfg.start_round, "ZeroDivisionError: integer modulo by zero")) := by
  have hcw : ∀ (sample2 : List ℕ) (nc rnd2 : ℕ),
      get_collaborator_weights cfg node_id sample2 nc rnd2 =
        .error "ZeroDivisionError: integer modulo by zero" := by
    intro sample2 nc rnd2
    unfold get_collaborator_weights
    rw [hs]
    rw [if_neg (by decide), if_pos rfl, if_neg (by omega),
      if_pos (by rw [hn]; rfl)]
  have hround : ∀ (model1 : R) (reprs1 : List R) (sample1 : List ℕ) (rnd1 : ℕ),
      runProtocolRound cfg env node_id model1 reprs1 sample1 rnd1 =
        ([ClientAction.recvRoundStart, ClientAction.sendReprAdvert,
          ClientAction.recvReprsShare],
         .error "ZeroDivisionError: integer modulo by zero") := by
    intro model1 reprs1 sample1 rnd1
    unfold runProtocolRound
    rw [hcw]
  refine ⟨hcw sample _ rnd, hround model reprs sample rnd, ?_⟩
  intro model0 reprsOf sampleOf hlt
  obtain ⟨m, hm⟩ : ∃ m, cfg.rounds - cfg.start_round = m + 1 :=
    ⟨cfg.rounds - cfg.start_round - 1, by omega⟩
  unfold clientRunProtocol
  rw [hm, List.range'_succ]
  unfold clientRoundsGo
  rw [hround]

/-- C4 (amended) witness: the two-user `direct_expo` fixture errors at its
first round index 0. -/
theorem direct_expo_two_users_zero_division_witness :
    (clientRunProtocol cfgDirectExpo2 envUnit 1 () (fun _ => [(), ()])
        (fun _ => [])).2 =
      .error (cfgDirectExpo2.start_round,
        "ZeroDivisionError: integer modulo by zero") :=
  (direct_expo_two_users_zero_division cfgDirectExpo2 envUnit 1 () [] [] 0
    rfl rfl).2.2 () (fun _ => [(), ()]) (fun _ => []) (by decide)

/-- C5 counterexample: an unrecognized strategy name (`"magic"`) is not
rejected at configuration-validation time; the client enters round 0,
performs the round's message exchange, and only then the weight computation
raises `ValueError("Strategy not implemented")`. -/
theorem unknown_strategy_fails_mid_round_cex :
    clientRunProtocol cfgUnknownStrategy envUnit 1 () (fun _ => [(), ()])
        (fun _ => []) =
      ([(0, [ClientAction.recvRoundStart, ClientAction.sendReprAdvert,
        ClientAction.recvReprsShare])],
       .error (0, "ValueError: Strategy not implemented")) ∧
    get_collaborator_weights cfgUnknownStrategy 1 []
        (targetNumCollaborator cfgUnknownStrategy 0) 0 =
      .error "ValueError: Strategy not implemented" :=
  ⟨rfl, rfl⟩

/-- C5 (amended): an unrecognized strategy name raises
`ValueError("Strategy not implemented")` inside `get_collaborator_weights`
when the first executed round reaches the weight computation — a runtime
control-flow branch failure, not an eager configuration-validation
failure. -/
theorem unknown_strategy_runtime_error {R : Type} (cfg : Config)
    (env : Env R) (node_id : ℕ) (model : R) (reprs : List R)
    (sample : List ℕ) (rnd : ℕ)
    (hs1 : cfg.strategy ≠ "fixed") (hs2 : cfg.strategy ≠ "direct_expo")
    (hs3 : cfg.strategy ≠ "random_among_assigned") :
    get_collaborator_weights cfg node_id sample
        (targetNumCollaborator cfg rnd) rnd =
      .error "ValueError: Strategy not implemented" ∧
    runProtocolRound cfg env node_id model reprs sample rnd =
      ([ClientAction.recvRoundStart, ClientAction.sendReprAdvert,
        ClientAction.recvReprsShare],
       .error "ValueError: Strategy not implemented") ∧
    (∀ (model0 : R) (reprsOf : ℕ → List R) (sampleOf : ℕ → List ℕ),
      cfg.start_round < cfg.rounds →
      (clientRunProtocol cfg env node_id model0 reprsOf sampleOf).2 =
        .error (cfg.start_round, "ValueError: Strategy not implemented")) := by
  have hcw : ∀ (sample2 : List ℕ) (nc rnd2 : ℕ),
      get_collaborator_weights cfg node_id sample2 nc rnd2 =
        .error "ValueError: Strategy not implemented" := by
    intro sample2 nc rnd2
    unfold get_collaborator_weights
    rw [if_neg hs1, if_neg hs2, if_neg hs3]
  have hround : ∀ (model1 : R) (reprs1 : List R) (sample1 : List ℕ) (rnd1 : ℕ),
      runProtocolRound cfg env node_id model1 reprs1 sample1 rnd1 =
        ([ClientAction.recvRoundStart, ClientAction.sendReprAdvert,
          ClientAction.recvReprsShare],
         .error "ValueError: Strategy not implemented") := by
    intro model1 reprs1 sample1 rnd1
    unfold runProtocolRound
    rw [hcw]
  refine ⟨hcw sample _ rnd, hround model reprs sample rnd, ?_⟩
  intro model0 reprsOf sampleOf hlt
  obtain ⟨m, hm⟩ : ∃ m, cfg.rounds - cfg.start_round = m + 1 :=
    ⟨cfg.rounds - cfg.start_round - 1, by omega⟩
  unfold clientRunProtocol
  rw [hm, List.range'_succ]
  unfold clientRoundsGo
  rw [hround]

/-- C5 (amended) witness: the `"magic"` fixture errors at its first round
index 0. -/
theorem unknown_strategy_runtime_error_witness :
    (clientRunProtocol cfgUnknownStrategy envUnit 1 () (fun _ => [(), ()])
        (fun _ => [])).2 =
      .error (cfgUnknownStrategy.start_round,
        "ValueError: Strategy not implemented") :=
  (unknown_strategy_runtime_error cfgUnknownStrategy envUnit 1 () [] [] 0
    (by decide) (by decide) (by decide)).2.2 () (fun _ => [(), ()])
    (fun _ => []) (by decide)

theorem serverRoundsGo_state (users : List ℕ) (statsOf : ℕ → List RoundStats)
    (rs : List ℕ) :
    ∀ (st : ServerState) (acc : List (List RoundStats)) (tr : List ServerAction),
      (serverRoundsGo users statsOf rs st acc tr).1 = st := by
  induction rs with
  | nil => intro st acc tr; rfl
  | cons r rs ih =>
    intro st acc tr
    simp only [serverRoundsGo, serverSingleRound]
    exact ih st _ _

theorem saveModel_not_mem_serverSingleRound (st : ServerState) (users : List ℕ)
    (rstats : List RoundStats) :
    ServerAction.saveModel ∉ (serverSingleRound st users rstats).2.2 := by
  simp [serverSingleRound]

theorem serverRoundsGo_no_save (users : List ℕ) (statsOf : ℕ → List RoundStats)
    (rs : List ℕ) :
    ∀ (st : ServerState) (acc : List (List RoundStats)) (tr : List ServerAction),
      ServerAction.saveModel ∉ tr →
      ServerAction.saveModel ∉ (serverRoundsGo users statsOf rs st acc tr).2.2 := by
  induction rs with
  | nil => intro st acc tr htr; exact htr
  | cons r rs ih =>
    intro st acc tr htr
    simp only [serverRoundsGo, serverSingleRound]
    apply ih
    intro hmem
    rcases List.mem_append.mp hmem with hin | hin
    · exact htr hin
    · rcases List.mem_cons.mp hin with hin2 | hin2
      · exact ServerAction.noConfusion hin2
      · rcases List.mem_append.mp hin2 with hin3 | hin3
        · rcases List.mem_map.mp hin3 with ⟨d, _, hd⟩
          exact ServerAction.noConfusion hd
        · simp at hin3

/-- C7 counterexample: a one-round run whose client stats report accuracy 1
against an initial best accuracy 0 — per the claim the server would compare
and checkpoint during the round, but `run_protocol` finishes with
`best_acc` unchanged and no save action in its trace (it never calls
`test`). -/
theorem server_never_tracks_best_acc_cex :
    (serverRunProtocol cfgFixedTriple ⟨0⟩ [1, 2, 3]
        (fun _ => [statsAccOne, statsAccOne, statsAccOne])).1 = ⟨0⟩ ∧
    statsAccOne.test_acc_after_training = 1 ∧ (0 : ℚ) < 1 ∧
    ServerAction.saveModel ∉ (serverRunProtocol cfgFixedTriple ⟨0⟩ [1, 2, 3]
        (fun _ => [statsAccOne, statsAccOne, statsAccOne])).2.2 :=
  ⟨rfl, rfl, by norm_num, by decide⟩

/-- C7 (amended): `FedAssServer.test` does implement the running-maximum
comparison (updating `best_acc` and saving a checkpoint exactly when the
new accuracy exceeds it), but neither `single_round` nor `run_protocol`
invokes it: over any run the server's `best_acc` is left unchanged and no
checkpoint-save occurs, so the best-accuracy tracking is not performed as
part of the run. -/
theorem server_best_acc_tracking_dead_code :
    (∀ (st : ServerState) (acc : ℚ), st.best_acc < acc →
      serverTest st acc = ({ best_acc := acc }, [ServerAction.saveModel], acc)) ∧
    (∀ (st : ServerState) (acc : ℚ), ¬ st.best_acc < acc →
      serverTest st acc = (st, [], acc)) ∧
    (∀ (cfg : Config) (st0 : ServerState) (users : List ℕ)
        (statsOf : ℕ → List RoundStats),
      (serverRunProtocol cfg st0 users statsOf).1 = st0 ∧
      ServerAction.saveModel ∉ (serverRunProtocol cfg st0 users statsOf).2.2) := by
  refine ⟨fun st acc h => ?_, fun st acc h => ?_, fun cfg st0 users statsOf => ⟨?_, ?_⟩⟩
  · unfold serverTest
    rw [if_pos h]
  · unfold serverTest
    rw [if_neg h]
  · unfold serverRunProtocol
    simp only [serverRoundsGo_state]
  · unfold serverRunProtocol
    intro hmem
    simp only [List.mem_append] at hmem
    rcases hmem with hin | hin
    · exact serverRoundsGo_no_save users statsOf _ st0 [] [ServerAction.logConsole]
        (by simp) hin
    · simp at hin

/-- C7 (amended) witness: `test` on best accuracy 0 and new accuracy 1
updates the maximum and saves, while the one-round run fixture leaves the
state untouched. -/
theorem server_best_acc_tracking_dead_code_witness :
    serverTest ⟨0⟩ 1 = (⟨1⟩, [ServerAction.saveModel], 1) ∧
    (serverRunProtocol cfgFixedTriple ⟨0⟩ [1, 2, 3]
        (fun _ => [statsAccOne, statsAccOne, statsAccOne])).1 = ⟨0⟩ :=
  ⟨server_best_acc_tracking_dead_code.1 ⟨0⟩ 1 (by norm_num),
   (server_best_acc_tracking_dead_code.2.2 cfgFixedTriple ⟨0⟩ [1, 2, 3]
     (fun _ => [statsAccOne, statsAccOne, statsAccOne])).1⟩
